import Mathlib

/-! # Verification of the musicschool playback daemon

Shallow embedding of the Python sources of the repository
(`schedule_utils.py`, `player.py`, `playback_daemon.py`, `models.py`).

Conventions of the embedding:
* Python `datetime` values are modelled as seconds since an epoch that falls
  on a Monday at 00:00, so `weekday = (t / 86400) % 7` with 0 = Monday,
  matching `datetime.weekday()` relative to the week cycle.
* Python functions that can raise return `Except Unit` (an uncaught
  exception) or `Option` (a caught failure path), as the call sites dictate.
* Python strings are processed through character-list helpers (`pyStrip`,
  `pySplit`, ...) that mirror the exact semantics of the `str` methods used
  by the sources for the single-character separators the sources use.
-/

deriving instance DecidableEq for Except

namespace MusicSchool

/-! ## Python string primitives -/

/-- ASCII whitespace as stripped by Python `str.strip()` for the inputs that
occur here. -/
def pySpace (c : Char) : Bool :=
  c = ' ' ∨ c = '\t' ∨ c = '\n' ∨ c = '\r'

/-- Python `s.strip()`: drop whitespace from both ends. -/
def pyStrip (s : String) : String :=
  ⟨((s.data.dropWhile pySpace).reverse.dropWhile pySpace).reverse⟩

/-- Uppercase a single ASCII character, as Python `str.upper` does on the
ASCII tokens that occur in day expressions. -/
def pyUpperChar (c : Char) : Char :=
  if 'a' ≤ c ∧ c ≤ 'z' then Char.ofNat (c.toNat - 32) else c

/-- Python `s.upper()` on ASCII strings. -/
def pyUpper (s : String) : String := ⟨s.data.map pyUpperChar⟩

/-- Split a character list at every occurrence of a separator character.
Like Python `str.split(sep)`, the result is never empty and keeps empty
fields. -/
def splitChars (sep : Char) : List Char → List (List Char)
  | [] => [[]]
  | c :: cs =>
      let rest := splitChars sep cs
      if c = sep then [] :: rest
      else
        match rest with
        | [] => [[c]]
        | r :: rs => (c :: r) :: rs

/-- Python `s.split(sep)` for a single-character separator. -/
def pySplit (s : String) (sep : Char) : List String :=
  (splitChars sep s.data).map (fun cs => ⟨cs⟩)

/-- Python `s.split(sep, 1)`: split at the first occurrence only. -/
def pySplitOnce (s : String) (sep : Char) : List String :=
  match pySplit s sep with
  | [] => []
  | x :: rest =>
      if rest = [] then [x]
      else [x, String.intercalate (String.mk [sep]) rest]

/-- Python `s.replace(a, b)` for single characters. -/
def pyReplaceChar (s : String) (a b : Char) : String :=
  ⟨s.data.map (fun c => if c = a then b else c)⟩

/-- Decimal digit value of a character. -/
def digitVal (c : Char) : Option Nat :=
  if '0' ≤ c ∧ c ≤ '9' then some (c.toNat - 48) else none

/-- Parse a non-empty all-digit character list as a natural number. -/
def pyIntCore (cs : List Char) : Option Nat :=
  if cs = [] then none
  else cs.foldl (fun acc c => acc.bind fun n => (digitVal c).map fun d => n * 10 + d)
    (some 0)

/-- Python `int(s)` on the day / time tokens in scope: optional sign,
decimal digits, surrounding whitespace; `none` models a `ValueError`. -/
def pyInt (s : String) : Option Int :=
  match (pyStrip s).data with
  | '-' :: cs => (pyIntCore cs).map (fun n => -(n : Int))
  | '+' :: cs => (pyIntCore cs).map (fun n => (n : Int))
  | cs => (pyIntCore cs).map (fun n => (n : Int))

/-- Python `range(a, b)` as a list of integers. -/
def intRange (a b : Int) : List Int :=
  (List.range (b - a).toNat).map (fun (i : Nat) => a + (i : Int))

/-- `",".join(str(item) for item in l)`. -/
def joinComma (l : List Int) : String :=
  String.intercalate "," (l.map toString)

/-! ## schedule_utils.py -/

/-- The `DAY_ALIASES` table of `schedule_utils.py`. -/
def DAY_ALIASES : List (String × Int) :=
  [("0", 0), ("1", 1), ("2", 2), ("3", 3), ("4", 4), ("5", 5), ("6", 6),
   ("SUN", 6), ("SUNDAY", 6), ("MON", 0), ("MONDAY", 0), ("TUE", 1),
   ("TUESDAY", 1), ("WED", 2), ("WEDNESDAY", 2), ("THU", 3), ("THUR", 3),
   ("THURSDAY", 3), ("FRI", 4), ("FRIDAY", 4), ("SAT", 5), ("SATURDAY", 5)]

/-- `schedule_utils._parse_single_day`: alias lookup; a missing key raises
`ValueError`. -/
def parse_single_day (token : String) : Except Unit Int :=
  match DAY_ALIASES.lookup token with
  | some v => .ok v
  | none => .error ()

/-- `schedule_utils._expand_token`. -/
def expand_token (token : String) : Except Unit (List Int) :=
  let upper := pyUpper token
  if upper = "WEEKDAY" ∨ upper = "WEEKDAYS" then .ok (intRange 0 5)
  else if upper = "WEEKEND" ∨ upper = "WEEKENDS" then .ok [5, 6]
  else if upper.data.contains '-' then
    match (pySplitOnce upper '-').map pyStrip with
    | [start_str, end_str] =>
        match parse_single_day start_str, parse_single_day end_str with
        | .ok start, .ok last =>
            if start ≤ last then .ok (intRange start (last + 1))
            else .ok (intRange start 7 ++ intRange 0 (last + 1))
        | .error e, _ => .error e
        | _, .error e => .error e
    | _ => .error ()
  else
    match parse_single_day upper with
    | .ok v => .ok [v]
    | .error e => .error e

/-- One element of a Python iterable of day values: an `int` or a `str`. -/
inductive DayItem where
  | int (i : Int)
  | str (s : String)
deriving DecidableEq

/-- A Python `days` argument to `normalise_days`: `None`, a string, or an
iterable of day values. -/
inductive DaysExpr where
  | nil
  | str (s : String)
  | items (l : List DayItem)
deriving DecidableEq

/-- The per-item value extraction step of
`schedule_utils._coerce_iterable_days`: an `int` is taken as is, a `str` is
stripped, uppercased and looked up. -/
def day_item_value : DayItem → Except Unit Int
  | .int i => .ok i
  | .str s => parse_single_day (pyUpper (pyStrip s))

/-- `schedule_utils._coerce_iterable_days`: the loop is unrolled into
structural recursion; each item is validated against 0..6 in order. -/
def coerce_iterable_days : List DayItem → Except Unit (List Int)
  | [] => .ok []
  | item :: rest =>
      match day_item_value item with
      | .error e => .error e
      | .ok value =>
          if value < 0 ∨ 6 < value then .error ()
          else
            match coerce_iterable_days rest with
            | .error e => .error e
            | .ok tail => .ok (value :: tail)

/-- The token loop of the string branch of `normalise_days`: expand each
non-empty stripped token and concatenate the results in order. -/
def str_day_values_list : List String → Except Unit (List Int)
  | [] => .ok []
  | raw :: rest =>
      if pyStrip raw = "" then str_day_values_list rest
      else
        match expand_token (pyStrip raw) with
        | .error e => .error e
        | .ok vs =>
            match str_day_values_list rest with
            | .error e => .error e
            | .ok tail => .ok (vs ++ tail)

/-- The string branch of `normalise_days`: replace `/` by `,`, split on `,`
and expand every token. -/
def str_day_values (s : String) : Except Unit (List Int) :=
  str_day_values_list (pySplit (pyReplaceChar s '/' ',') ',')

/-- Insert a value into an ascending duplicate-free list, keeping it
ascending and duplicate-free. -/
def insertSortedDedup (x : Int) : List Int → List Int
  | [] => [x]
  | y :: ys =>
      if x < y then x :: y :: ys
      else if x = y then y :: ys
      else y :: insertSortedDedup x ys

/-- Python `sorted(set(l))` on integers. -/
def sortedSet (l : List Int) : List Int :=
  l.foldr insertSortedDedup []

/-- The list of weekday values collected by `normalise_days` before it sorts
and joins them; for `None` this is the full week the returned literal
denotes. -/
def normaliseDaysValues : DaysExpr → Except Unit (List Int)
  | .nil => .ok (intRange 0 7)
  | .str s => str_day_values s
  | .items l => coerce_iterable_days l

/-- `schedule_utils.normalise_days`. -/
def normalise_days : DaysExpr → Except Unit String
  | .nil => .ok "0,1,2,3,4,5,6"
  | .str s =>
      match str_day_values s with
      | .error e => .error e
      | .ok values => .ok (joinComma (sortedSet values))
  | .items l =>
      match coerce_iterable_days l with
      | .error e => .error e
      | .ok values => .ok (joinComma (sortedSet values))

/-- `schedule_utils.parse_day_string` on a string argument (the `None`
argument behaves exactly like the empty string: both are falsy). -/
def parse_day_string (days : String) : Except Unit (List Int) :=
  if days = "" then .ok (intRange 0 7)
  else
    match ((pySplit days ',').filterMap fun item =>
        if pyStrip item = "" then none else some (pyStrip item)).mapM pyInt with
    | none => .error ()
    | some parsed =>
        if parsed = [] then .ok (intRange 0 7)
        else if parsed.any (fun v => decide (v < 0) || decide (6 < v)) then .error ()
        else .ok (sortedSet parsed)

/-! ## Time model

`dt.datetime` values are seconds since a Monday-00:00 epoch.  The daemon and
`next_occurrence` only use a datetime through: comparison, addition of
seconds, `weekday()`, `date()` (the containing day), `strftime("%H:%M")`,
and `replace(second=0, microsecond=0)` (rounding down to the minute), all of
which this model captures. -/

/-- `str(now.weekday())`: day index modulo 7, with day 0 a Monday. -/
def weekday_str (now : Nat) : String :=
  toString ((now / 86400) % 7)

/-- Render a number of hours or minutes with two digits, as `%H` / `%M`. -/
def two_digit (n : Nat) : String :=
  if n < 10 then "0" ++ toString n else toString n

/-- `now.strftime("%H:%M")`. -/
def hhmm (now : Nat) : String :=
  two_digit (now % 86400 / 3600) ++ ":" ++ two_digit (now % 3600 / 60)

/-! ## models.py rows -/

/-- A row of the `tracks` table, plus whether `music_dir/stored_filename`
exists on disk (the filesystem fact `_start_preview` checks). -/
structure MTrack where
  id : Int
  stored_filename : String
  duration_sec : Option Nat
  on_disk : Bool
deriving DecidableEq

/-- A `playlists` row joined with its ordered `playlist_tracks` entries:
`track_ids` lists the member track ids in `position` order. -/
structure Playlist where
  id : Int
  track_ids : List Int
deriving DecidableEq

/-- A row of the `schedules` table. `session_minutes = 0` models the falsy
value that makes the daemon fall back to the configured default. -/
structure Schedule where
  id : Int
  playlist_id : Option Int
  days : String
  start_time : String
  session_minutes : Nat
  enabled : Bool
  last_fired_at : Option Nat
deriving DecidableEq

/-- A decoded command payload: the JSON keys the daemon reads, each
optional. -/
structure Payload where
  playlist_id : Option Int := none
  minutes : Option Int := none
  volume : Option Int := none
  track_id : Option Int := none
deriving DecidableEq

/-- A row of the `commands` table; list position models `created_at`
order. -/
structure Command where
  id : Int
  type : String
  payload : Payload := {}
  processed_at : Option Nat := none
deriving DecidableEq

/-- The singleton `state` row with its column defaults. -/
structure StateRow where
  status : String := "idle"
  current_track_id : Option Int := none
  playlist_id : Option Int := none
  volume : Int := 70
  session_end_at : Option Nat := none
  power_on : Bool := false
  updated_at : Nat := 0
  heartbeat_at : Nat := 0
deriving DecidableEq

/-! ## schedule_utils.next_occurrence -/

/-- `schedule_utils.next_occurrence`.  `.error` models an uncaught
`ValueError` (raised by `dt.time` for out-of-range fields, or propagated
from `parse_day_string`); `.ok none` models returning `None`. -/
def next_occurrence (sched : Schedule) (reference : Nat) : Except Unit (Option Nat) :=
  match parse_day_string sched.days with
  | .error e => .error e
  | .ok days =>
      if days = [] then .ok none
      else
        match (pySplitOnce (if sched.start_time = "" then "00:00" else sched.start_time)
            ':').mapM pyInt with
        | some [hour, minute] =>
            if 0 ≤ hour ∧ hour ≤ 23 ∧ 0 ≤ minute ∧ minute ≤ 59 then
              .ok ((List.range 14).findSome? fun offset =>
                if (((reference / 60 * 60 / 86400 + offset) % 7 : Nat) : Int) ∈ days then
                  if reference / 60 * 60 ≤
                      (reference / 60 * 60 / 86400 + offset) * 86400 +
                        hour.toNat * 3600 + minute.toNat * 60 then
                    some ((reference / 60 * 60 / 86400 + offset) * 86400 +
                      hour.toNat * 3600 + minute.toNat * 60)
                  else none
                else none)
            else .error ()
        | _ => .ok none

/-- The candidate `next_occurrence` builds for the day containing the
reference: reference's day at `hour:minute`. -/
def day_start (reference : Nat) (hour minute : Int) : Nat :=
  reference / 60 * 60 / 86400 * 86400 + hour.toNat * 3600 + minute.toNat * 60

/-! ## player.py -/

/-- `player.DummyPlayer`, with its constructor defaults. -/
structure DummyPlayer where
  files : List String := []
  index : Int := -1
  playing : Bool := false
  volume : Int := 70
deriving DecidableEq

namespace DummyPlayer

def load_playlist (p : DummyPlayer) (files : List String) : DummyPlayer :=
  { p with files := files, index := if files = [] then -1 else 0, playing := false }

def play (p : DummyPlayer) : DummyPlayer :=
  if p.files = [] then p else { p with playing := true }

def stop (p : DummyPlayer) : DummyPlayer :=
  { p with playing := false, index := -1 }

def set_volume (p : DummyPlayer) (volume : Int) : DummyPlayer :=
  { p with volume := max 0 (min 100 volume) }

def is_playing (p : DummyPlayer) : Bool := p.playing

def update (_ : DummyPlayer) : Option Int := none

def current_index (p : DummyPlayer) : Int := p.index

def skip (p : DummyPlayer) : DummyPlayer :=
  if p.files = [] then p
  else if p.index + 1 < p.files.length then { p with index := p.index + 1 }
  else p.stop

end DummyPlayer

/-- `player.CVLCPlayer`: the Python-side bookkeeping state.  The live
subprocess handle is modelled by the boolean `process`; the RC commands
written to its stdin have no modelled effect. -/
structure CVLCPlayer where
  files : List String := []
  index : Int := -1
  playing : Bool := false
  volume : Int := 70
  process : Bool := false
deriving DecidableEq

namespace CVLCPlayer

/-- `stop`: kill the process, reset the cursor. -/
def stop (p : CVLCPlayer) : CVLCPlayer :=
  { p with playing := false, process := false, index := -1 }

def load_playlist (p : CVLCPlayer) (files : List String) : CVLCPlayer :=
  let p := p.stop
  { p with files := files, index := if files = [] then -1 else 0 }

/-- `_spawn`: start the subprocess when there are files. -/
def spawn (p : CVLCPlayer) : CVLCPlayer :=
  if p.files = [] then p else { p with process := true }

def play (p : CVLCPlayer) : CVLCPlayer :=
  let p := if p.process then p else p.spawn
  if p.process then { p with playing := true } else p

def set_volume (p : CVLCPlayer) (volume : Int) : CVLCPlayer :=
  { p with volume := max 0 (min 100 volume) }

def is_playing (p : CVLCPlayer) : Bool := p.process && p.playing

def current_index (p : CVLCPlayer) : Int := p.index

/-- `skip`: queue a `next` RC command and advance the local cursor modulo
the playlist length. -/
def skip (p : CVLCPlayer) : CVLCPlayer :=
  if p.process then
    if p.files = [] then p
    else { p with index := (p.index + 1) % (p.files.length : Int) }
  else p

end CVLCPlayer

/-! ## playback_daemon.py -/

/-- The configuration keys the daemon tick logic reads. -/
structure Config where
  session_default_minutes : Int := 15
  volume_default : Int := 70
deriving DecidableEq

/-- The daemon context plus every piece of durable state its tick touches:
the session-state row, the schedule / command tables, the read-only
playlist / track tables, the player backend (the dummy backend the factory
falls back to), the relay's commanded state, the in-memory
`current_track_ids` cache, and the log messages written so far. -/
structure Daemon where
  state : StateRow := {}
  tracks : List MTrack := []
  playlists : List Playlist := []
  schedules : List Schedule := []
  commands : List Command := []
  player : DummyPlayer := {}
  relay_on : Bool := false
  current_track_ids : List Int := []
  logs : List String := []
deriving DecidableEq

namespace Daemon

/-- `PlaybackDaemon._log` (level and meta dropped: only the message is
observed). -/
def logMsg (d : Daemon) (msg : String) : Daemon :=
  { d with logs := d.logs ++ [msg] }

/-- `PlaybackDaemon._playlist_files`: the ordered join of
`playlist_tracks` with `tracks` (file paths relative to `music_dir`). -/
def playlist_files (d : Daemon) (playlist_id : Int) : List String × List Int :=
  let entries := ((d.playlists.find? fun p => p.id == playlist_id).map
    Playlist.track_ids).getD []
  let tracks := entries.filterMap fun tid => d.tracks.find? fun t => t.id == tid
  (tracks.map MTrack.stored_filename, tracks.map MTrack.id)

/-- `PlaybackDaemon._start_tracks`. -/
def start_tracks (cfg : Config) (now : Nat) (d : Daemon) (file_paths : List String)
    (track_ids : List Int) (duration_seconds : Int) (playlist_id : Option Int) :
    Daemon × Bool :=
  if file_paths = [] then (d, false)
  else
    let duration := max 30 duration_seconds
    let volume := if d.state.volume = 0 then cfg.volume_default else d.state.volume
    let player := ((d.player.load_playlist file_paths).set_volume volume).play
    ({ d with
        relay_on := true,
        player := player,
        state := { d.state with
          volume := volume,
          status := "playing",
          playlist_id := playlist_id,
          session_end_at := some (now + duration.toNat),
          power_on := true,
          current_track_id := track_ids.head?,
          updated_at := now },
        current_track_ids := track_ids }, true)

/-- `PlaybackDaemon._start_session`. -/
def start_session (cfg : Config) (now : Nat) (d : Daemon) (playlist_id : Int)
    (minutes : Int) : Daemon :=
  if (d.playlist_files playlist_id).1 = [] then
    d.logMsg "Playlist empty, cannot start session"
  else
    let started := start_tracks cfg now d (d.playlist_files playlist_id).1
      (d.playlist_files playlist_id).2 (minutes * 60) (some playlist_id)
    if started.2 then started.1.logMsg "Session started" else started.1

/-- `PlaybackDaemon._stop_session`. -/
def stop_session (d : Daemon) (now : Nat) : Daemon :=
  if d.state.status ≠ "playing" ∧ ¬ d.relay_on then d
  else
    Daemon.logMsg
      { d with
        player := d.player.stop,
        relay_on := false,
        state := { d.state with
          status := "idle",
          playlist_id := none,
          session_end_at := none,
          current_track_id := none,
          power_on := false,
          updated_at := now },
        current_track_ids := [] }
      "Session stopped"

/-- `PlaybackDaemon._start_preview`. -/
def start_preview (cfg : Config) (now : Nat) (d : Daemon) (track_id : Int) : Daemon :=
  match d.tracks.find? fun t => t.id == track_id with
  | none => d.logMsg "Preview track missing"
  | some track =>
      if ¬ track.on_disk then d.logMsg "Preview file missing"
      else
        let d2 := if d.state.status = "playing" then d.stop_session now else d
        let duration : Int :=
          match track.duration_sec with
          | some n => if n = 0 then cfg.session_default_minutes * 60 else (n : Int)
          | none => cfg.session_default_minutes * 60
        let started := start_tracks cfg now d2 [track.stored_filename] [track.id]
          (max 30 duration) none
        if started.2 then started.1.logMsg "Preview started" else started.1

/-- The body of the loop in `PlaybackDaemon._tick_schedules` for one
enabled schedule. -/
def sched_fire (cfg : Config) (now : Nat) (d : Daemon) (sched : Schedule) : Daemon :=
  if ¬ (pySplit sched.days ',').contains (weekday_str now) then d
  else if sched.start_time ≠ hhmm now then d
  else if (match sched.last_fired_at with
           | some t => decide ((now : Int) - t < 50)
           | none => false) = true then d
  else
    match sched.playlist_id with
    | none => d
    | some pid =>
        let minutes : Int :=
          if sched.session_minutes = 0 then cfg.session_default_minutes
          else sched.session_minutes
        let d := start_session cfg now d pid minutes
        { d with schedules := d.schedules.map fun c =>
            if c.id == sched.id then { c with last_fired_at := some now } else c }

/-- `PlaybackDaemon._tick_schedules`: iterate over the snapshot of enabled
schedules. -/
def tick_schedules (cfg : Config) (now : Nat) (d : Daemon) : Daemon :=
  (d.schedules.filter Schedule.enabled).foldl (sched_fire cfg now) d

/-- `PlaybackDaemon._resolve_playlist`. -/
def resolve_playlist (d : Daemon) : Option Int :=
  match d.playlists with
  | [p] => some p.id
  | _ => none

/-- `PlaybackDaemon._tick_commands`, body for one pending command: apply
its effect, then stamp `processed_at`. -/
def exec_command (cfg : Config) (now : Nat) (d : Daemon) (command : Command) : Daemon :=
  let d :=
    if command.type = "PLAY" then
      let minutes := command.payload.minutes.getD cfg.session_default_minutes
      let playlist_id :=
        match command.payload.playlist_id with
        | some pid => some pid
        | none => d.resolve_playlist
      match playlist_id with
      | none => d.logMsg "No playlist available for PLAY command"
      | some pid => start_session cfg now d pid minutes
    else if command.type = "STOP" then d.stop_session now
    else if command.type = "SET_VOLUME" then
      let volume := command.payload.volume.getD cfg.volume_default
      Daemon.logMsg
        { d with
          player := d.player.set_volume volume,
          state := { d.state with volume := volume, updated_at := now } }
        "Volume updated"
    else if command.type = "SKIP" then
      let player := d.player.skip
      let idx := player.current_index
      { d with
        player := player,
        state := { d.state with
          current_track_id :=
            if 0 ≤ idx ∧ idx < (d.current_track_ids.length : Int) then
              d.current_track_ids.get? idx.toNat
            else d.state.current_track_id,
          updated_at := now } }
    else if command.type = "POWER_ON" then
      Daemon.logMsg
        { d with
          relay_on := true,
          state := { d.state with power_on := true, updated_at := now } }
        "Relay powered on"
    else if command.type = "POWER_OFF" then
      Daemon.logMsg
        { d with
          relay_on := false,
          state := { d.state with power_on := false, updated_at := now } }
        "Relay powered off"
    else if command.type = "PREVIEW" then
      match command.payload.track_id with
      | none => d.logMsg "Preview command missing track_id"
      | some tid => start_preview cfg now d tid
    else d
  { d with commands := d.commands.map fun c =>
      if c.id == command.id then { c with processed_at := some now } else c }

/-- `PlaybackDaemon._tick_commands`: drain the snapshot of unprocessed
commands in creation order. -/
def tick_commands (cfg : Config) (now : Nat) (d : Daemon) : Daemon :=
  (d.commands.filter fun c => c.processed_at = none).foldl (exec_command cfg now) d

/-- `PlaybackDaemon._tick_player`. -/
def tick_player (d : Daemon) (now : Nat) : Daemon :=
  let idx :=
    match d.player.update with
    | none => d.player.current_index
    | some i => i
  let state :=
    if 0 ≤ idx ∧ idx < (d.current_track_ids.length : Int) then
      { d.state with current_track_id := d.current_track_ids.get? idx.toNat }
    else if idx < 0 then { d.state with current_track_id := none }
    else d.state
  let d := { d with state := state }
  if ¬ d.player.is_playing = true ∧ d.state.status = "playing" ∧ idx = -1 then
    d.stop_session now
  else { d with state := { d.state with updated_at := now } }

/-- `PlaybackDaemon._tick_session_timeout`. -/
def tick_session_timeout (d : Daemon) (now : Nat) : Daemon :=
  if d.state.status ≠ "playing" then d
  else
    match d.state.session_end_at with
    | none => d
    | some session_end => if session_end ≤ now then d.stop_session now else d

/-- `PlaybackDaemon._heartbeat`. -/
def heartbeat (d : Daemon) (now : Nat) : Daemon :=
  { d with state := { d.state with heartbeat_at := now } }

end Daemon

/-- The daemon state after startup on a fresh database: `ensure_state_row`
creates the state singleton with its column defaults, every table is empty,
the relay starts off and the fallback dummy player is fresh. -/
def init_daemon : Daemon := {}

/-- One observable daemon step: the transitions named by the session state
machine (session start, preview start, session stop), the tick phases
(schedule firing, command draining, player poll, timeout enforcement,
heartbeat), and the actions of external collaborators (enqueueing a
command, editing schedule / playlist / track rows). -/
inductive DaemonStep (cfg : Config) : Daemon → Daemon → Prop where
  | session_start (d : Daemon) (now : Nat) (pid minutes : Int) :
      DaemonStep cfg d (Daemon.start_session cfg now d pid minutes)
  | preview_start (d : Daemon) (now : Nat) (tid : Int) :
      DaemonStep cfg d (Daemon.start_preview cfg now d tid)
  | session_stop (d : Daemon) (now : Nat) :
      DaemonStep cfg d (d.stop_session now)
  | schedules (d : Daemon) (now : Nat) :
      DaemonStep cfg d (Daemon.tick_schedules cfg now d)
  | commands (d : Daemon) (now : Nat) :
      DaemonStep cfg d (Daemon.tick_commands cfg now d)
  | player_poll (d : Daemon) (now : Nat) :
      DaemonStep cfg d (d.tick_player now)
  | timeout (d : Daemon) (now : Nat) :
      DaemonStep cfg d (d.tick_session_timeout now)
  | beat (d : Daemon) (now : Nat) :
      DaemonStep cfg d (d.heartbeat now)
  | enqueue_command (d : Daemon) (c : Command) :
      DaemonStep cfg d { d with commands := d.commands ++ [c] }
  | edit_schedules (d : Daemon) (ss : List Schedule) :
      DaemonStep cfg d { d with schedules := ss }
  | edit_library (d : Daemon) (ps : List Playlist) (ts : List MTrack) :
      DaemonStep cfg d { d with playlists := ps, tracks := ts }

/-- Reachability of a daemon state from startup through daemon steps. -/
def ReachableDaemon (cfg : Config) (d : Daemon) : Prop :=
  Relation.ReflTransGen (DaemonStep cfg) init_daemon d

/-- The Session State invariant claimed for `status = playing` /
`status = idle`. -/
def state_invariant (d : Daemon) : Prop :=
  (d.state.status = "playing" → d.state.session_end_at ≠ none) ∧
  (d.state.status = "idle" →
    d.state.session_end_at = none ∧ d.state.playlist_id = none ∧
    d.state.current_track_id = none)

/-- Strengthened induction invariant: additionally, an idle daemon holds no
cached track ids. -/
def daemon_invariant (d : Daemon) : Prop :=
  state_invariant d ∧ (d.state.status = "idle" → d.current_track_ids = [])

/-- Count of session starts visible in the log. -/
def session_start_count (logs : List String) : Nat :=
  (logs.filter fun m => m = "Session started").length

/-! ## Lemmas about `sortedSet` -/

theorem mem_insertSortedDedup {a x : Int} {l : List Int} :
    a ∈ insertSortedDedup x l ↔ a = x ∨ a ∈ l := by
  induction l with
  | nil => simp [insertSortedDedup]
  | cons y ys ih =>
      unfold insertSortedDedup
      split
      · simp only [List.mem_cons]
      · split
        next heq =>
          subst heq
          simp only [List.mem_cons]
          tauto
        next =>
          simp only [List.mem_cons, ih]
          tauto

theorem sorted_insertSortedDedup {x : Int} {l : List Int}
    (h : l.Sorted (· < ·)) : (insertSortedDedup x l).Sorted (· < ·) := by
  induction l with
  | nil => simp [insertSortedDedup]
  | cons y ys ih =>
      rw [List.sorted_cons] at h
      obtain ⟨hy, hys⟩ := h
      unfold insertSortedDedup
      split
      next hlt =>
        rw [List.sorted_cons]
        refine ⟨?_, by rw [List.sorted_cons]; exact ⟨hy, hys⟩⟩
        intro b hb
        rcases List.mem_cons.mp hb with rfl | hb
        · exact hlt
        · exact lt_trans hlt (hy b hb)
      next hnl =>
        split
        next => rw [List.sorted_cons]; exact ⟨hy, hys⟩
        next hne =>
          rw [List.sorted_cons]
          refine ⟨?_, ih hys⟩
          intro b hb
          rcases mem_insertSortedDedup.mp hb with rfl | hb
          · omega
          · exact hy b hb

theorem sortedSet_cons {x : Int} {xs : List Int} :
    sortedSet (x :: xs) = insertSortedDedup x (sortedSet xs) := rfl

theorem sortedSet_sorted (l : List Int) : (sortedSet l).Sorted (· < ·) := by
  induction l with
  | nil => simp [sortedSet]
  | cons x xs ih => rw [sortedSet_cons]; exact sorted_insertSortedDedup ih

theorem mem_sortedSet {a : Int} {l : List Int} : a ∈ sortedSet l ↔ a ∈ l := by
  induction l with
  | nil => simp [sortedSet]
  | cons x xs ih =>
      rw [sortedSet_cons, mem_insertSortedDedup, ih]
      simp only [List.mem_cons]

theorem insertSortedDedup_eq_cons {x : Int} {l : List Int}
    (h : ∀ b ∈ l, x < b) : insertSortedDedup x l = x :: l := by
  cases l with
  | nil => rfl
  | cons y ys =>
      unfold insertSortedDedup
      rw [if_pos (h y (by simp))]

theorem sortedSet_of_sorted {l : List Int} (h : l.Sorted (· < ·)) :
    sortedSet l = l := by
  induction l with
  | nil => rfl
  | cons x xs ih =>
      rw [List.sorted_cons] at h
      rw [sortedSet_cons, ih h.2, insertSortedDedup_eq_cons h.1]

theorem sortedSet_idem (l : List Int) : sortedSet (sortedSet l) = sortedSet l :=
  sortedSet_of_sorted (sortedSet_sorted l)

/-! ## Bounds of normalised day values -/

theorem mem_intRange {a lo hi : Int} : a ∈ intRange lo hi ↔ lo ≤ a ∧ a < hi := by
  unfold intRange
  rw [List.mem_map]
  constructor
  · rintro ⟨i, him, rfl⟩
    rw [List.mem_range] at him
    omega
  · rintro ⟨h1, h2⟩
    refine ⟨(a - lo).toNat, ?_, ?_⟩
    · rw [List.mem_range]; omega
    · omega

theorem lookup_property {P : Int → Prop} :
    ∀ {l : List (String × Int)}, (∀ p ∈ l, P p.2) →
      ∀ {t : String} {v : Int}, l.lookup t = some v → P v := by
  intro l
  induction l with
  | nil => intro _ t v h; simp [List.lookup] at h
  | cons p ps ih =>
      intro hall t v h
      obtain ⟨k, b⟩ := p
      cases hk : t == k <;> simp [List.lookup, hk] at h
      · exact ih (fun q hq => hall q (List.mem_cons_of_mem _ hq)) h
      · exact h ▸ hall (k, b) (List.mem_cons_self _ _)

theorem parse_single_day_bounds {t : String} {v : Int}
    (h : parse_single_day t = .ok v) : 0 ≤ v ∧ v ≤ 6 := by
  unfold parse_single_day at h
  cases hl : DAY_ALIASES.lookup t with
  | none => rw [hl] at h; exact absurd h (by simp)
  | some w =>
      rw [hl] at h
      cases h
      exact lookup_property (P := fun v => 0 ≤ v ∧ v ≤ 6) (by decide) hl

theorem expand_token_bounds {t : String} {vs : List Int}
    (h : expand_token t = .ok vs) : ∀ v ∈ vs, 0 ≤ v ∧ v ≤ 6 := by
  simp only [expand_token] at h
  split at h
  · cases h; intro v hv; rw [mem_intRange] at hv; omega
  · split at h
    · cases h
      intro v hv
      simp only [List.mem_cons, List.not_mem_nil, or_false] at hv
      rcases hv with rfl | rfl <;> norm_num
    · split at h
      · split at h
        next start_str end_str heq =>
          split at h
          next hs he =>
            have hsb := parse_single_day_bounds hs
            have heb := parse_single_day_bounds he
            split at h <;> cases h <;> intro v hv
            · rw [mem_intRange] at hv; omega
            · rcases List.mem_append.mp hv with hv | hv <;>
                rw [mem_intRange] at hv <;> omega
          next => exact absurd h (by simp)
          next => exact absurd h (by simp)
        next => exact absurd h (by simp)
      · split at h
        next v0 hp =>
          cases h
          have := parse_single_day_bounds hp
          intro v hv
          simp only [List.mem_singleton] at hv
          subst hv
          exact this
        next => exact absurd h (by simp)

theorem str_day_values_list_bounds : ∀ {toks : List String} {vs : List Int},
    str_day_values_list toks = .ok vs → ∀ v ∈ vs, 0 ≤ v ∧ v ≤ 6 := by
  intro toks
  induction toks with
  | nil => intro vs h; cases h; simp
  | cons raw rest ih =>
      intro vs h
      simp only [str_day_values_list] at h
      split at h
      · exact ih h
      · split at h
        next => exact absurd h (by simp)
        next xs he =>
          split at h
          next => exact absurd h (by simp)
          next tail ht =>
            cases h
            intro v hv
            rcases List.mem_append.mp hv with hv | hv
            · exact expand_token_bounds he v hv
            · exact ih ht v hv

theorem coerce_iterable_days_bounds : ∀ {items : List DayItem} {vs : List Int},
    coerce_iterable_days items = .ok vs → ∀ v ∈ vs, 0 ≤ v ∧ v ≤ 6 := by
  intro items
  induction items with
  | nil => intro vs h; cases h; simp
  | cons item rest ih =>
      intro vs h
      unfold coerce_iterable_days at h
      split at h
      next => exact absurd h (by simp)
      next value hval =>
        split at h
        · exact absurd h (by simp)
        next hrange =>
          split at h
          next => exact absurd h (by simp)
          next tail ht =>
            cases h
            intro v hv
            rcases List.mem_cons.mp hv with rfl | hv
            · omega
            · exact ih ht v hv

theorem normaliseDaysValues_bounds {d : DaysExpr} {vs : List Int}
    (h : normaliseDaysValues d = .ok vs) : ∀ v ∈ vs, 0 ≤ v ∧ v ≤ 6 := by
  cases d with
  | nil => cases h; intro v hv; rw [mem_intRange] at hv; omega
  | str s => exact str_day_values_list_bounds h
  | items l => exact coerce_iterable_days_bounds h

/-- Every successful `normalise_days` output is the comma join of the
sorted deduplication of the collected values. -/
theorem normalise_days_eq_join {d : DaysExpr} {out : String}
    (h : normalise_days d = .ok out) :
    ∃ vs, normaliseDaysValues d = .ok vs ∧ out = joinComma (sortedSet vs) := by
  cases d with
  | nil =>
      cases h
      exact ⟨intRange 0 7, rfl, by decide⟩
  | str s =>
      simp only [normalise_days] at h
      split at h
      · exact absurd h (by simp)
      next values hv =>
        cases h
        exact ⟨values, hv, rfl⟩
  | items l =>
      simp only [normalise_days] at h
      split at h
      · exact absurd h (by simp)
      next values hv =>
        cases h
        exact ⟨values, hv, rfl⟩

/-- **C8.** For every day expression accepted by the normaliser (delimited
token string, iterable of day values, or absent input), the result is the
comma join of a strictly ascending, deduplicated sequence of integers
within 0–6; in particular `"Fri-Mon"` yields `0,4,5,6`, `"Weekend"` yields
`5,6`, and absent input yields the full week `0,1,2,3,4,5,6`. -/
theorem C8_normalise_days_canonical :
    (∀ (d : DaysExpr) (out : String), normalise_days d = .ok out →
      ∃ l : List Int, out = joinComma l ∧ l.Sorted (· < ·) ∧
        ∀ v ∈ l, 0 ≤ v ∧ v ≤ 6) ∧
    normalise_days (.str "Fri-Mon") = .ok "0,4,5,6" ∧
    normalise_days (.str "Weekend") = .ok "5,6" ∧
    normalise_days .nil = .ok "0,1,2,3,4,5,6" := by
  refine ⟨?_, by decide, by decide, by decide⟩
  intro d out h
  obtain ⟨vs, hv, rfl⟩ := normalise_days_eq_join h
  exact ⟨sortedSet vs, rfl, sortedSet_sorted vs,
    fun v hm => normaliseDaysValues_bounds hv v (mem_sortedSet.mp hm)⟩

/-- Witness for C8 at the concrete input `"2/1"`. -/
theorem C8_witness :
    ∃ l : List Int, "1,2" = joinComma l ∧ l.Sorted (· < ·) ∧
      ∀ v ∈ l, 0 ≤ v ∧ v ≤ 6 :=
  C8_normalise_days_canonical.1 (.str "2/1") "1,2" (by decide)

/-! ## Round trips between `normalise_days` and `parse_day_string` -/

theorem sortedSet_eq_filter {l : List Int} (h : ∀ v ∈ l, 0 ≤ v ∧ v ≤ 6) :
    sortedSet l = (intRange 0 7).filter (fun x => decide (x ∈ l)) := by
  haveI : IsAntisymm Int (· < ·) := ⟨fun a b h1 h2 => absurd h1 (asymm h2)⟩
  have hnd : ((intRange 0 7).filter (fun x => decide (x ∈ l))).Nodup :=
    List.Nodup.filter _ (show (intRange 0 7).Nodup by decide)
  refine List.eq_of_perm_of_sorted ?_ (sortedSet_sorted l) ?_
  · apply (List.perm_ext_iff_of_nodup (sortedSet_sorted l).nodup hnd).mpr
    intro a
    rw [mem_sortedSet, List.mem_filter, mem_intRange, decide_eq_true_eq]
    constructor
    · intro ha
      have := h a ha
      exact ⟨⟨this.1, by omega⟩, ha⟩
    · exact fun ha => ha.2
  · exact List.Pairwise.filter _
      (show List.Pairwise (· < ·) (intRange 0 7) by decide)

theorem sortedSet_mem_sublists {l : List Int} (h : ∀ v ∈ l, 0 ≤ v ∧ v ≤ 6) :
    sortedSet l ∈ (intRange 0 7).sublists := by
  rw [List.mem_sublists, sortedSet_eq_filter h]
  exact List.filter_sublist _

set_option maxRecDepth 40000 in
set_option maxHeartbeats 2000000 in
/-- Exhaustive check over the 128 canonical day strings: the normaliser
reads each one back to exactly its value list, and `parse_day_string` reads
each non-empty one back to its value list while mapping the empty one to
the full week. -/
theorem roundtrip_on_canonical : ∀ l ∈ (intRange 0 7).sublists,
    str_day_values (joinComma l) = .ok l ∧
    parse_day_string (joinComma l) = .ok (if l = [] then intRange 0 7 else l) := by
  decide

theorem sortedSet_ne_nil {l : List Int} (h : l ≠ []) : sortedSet l ≠ [] := by
  obtain ⟨a, ha⟩ := List.exists_mem_of_ne_nil l h
  exact List.ne_nil_of_mem (mem_sortedSet.mpr ha)

/-- **C10** (amended).  Normalisation is idempotent on every accepted
input, and for every accepted input that denotes at least one weekday,
`parse_day_string` applied to the output returns exactly the sorted
deduplicated list of weekday numbers collected from the input.  (For an
input denoting no weekday the output is `""`, which `parse_day_string`
reads back as the full week.) -/
theorem C10_normalise_roundtrip :
    (∀ (d : DaysExpr) (out : String), normalise_days d = .ok out →
        normalise_days (.str out) = .ok out) ∧
    (∀ (d : DaysExpr) (out : String) (vs : List Int),
        normalise_days d = .ok out → normaliseDaysValues d = .ok vs →
        vs ≠ [] → parse_day_string out = .ok (sortedSet vs)) := by
  constructor
  · intro d out h
    obtain ⟨vs, hv, rfl⟩ := normalise_days_eq_join h
    have hb := normaliseDaysValues_bounds hv
    have hbs : ∀ v ∈ sortedSet vs, 0 ≤ v ∧ v ≤ 6 :=
      fun v hm => hb v (mem_sortedSet.mp hm)
    have hrt := (roundtrip_on_canonical (sortedSet vs)
      (sortedSet_mem_sublists hb)).1
    simp only [normalise_days, str_day_values] at hrt ⊢
    rw [hrt]
    exact congrArg (fun l => Except.ok (joinComma l)) (sortedSet_idem vs)
  · intro d out vs h hv hne
    obtain ⟨vs2, hv2, rfl⟩ := normalise_days_eq_join h
    rw [hv] at hv2
    cases hv2
    have hb := normaliseDaysValues_bounds hv
    have hrt := (roundtrip_on_canonical (sortedSet vs)
      (sortedSet_mem_sublists hb)).2
    rw [if_neg (sortedSet_ne_nil hne)] at hrt
    exact hrt

/-- **C10 counterexample.** The empty string is accepted by
`normalise_days` and denotes no weekday at all, yet `parse_day_string`
reads the normalised output `""` back as the full week, not as the empty
list. -/
theorem C10_counterexample :
    normalise_days (.str "") = .ok "" ∧
    normaliseDaysValues (.str "") = .ok [] ∧
    parse_day_string "" = .ok [0, 1, 2, 3, 4, 5, 6] ∧
    ([0, 1, 2, 3, 4, 5, 6] : List Int) ≠ [] := by
  refine ⟨by decide, by decide, by decide, by decide⟩

/-- Witness for C10 at the concrete input `"6,5"`. -/
theorem C10_witness :
    normalise_days (.str "5,6") = .ok "5,6" ∧
    parse_day_string "5,6" = .ok (sortedSet [6, 5]) :=
  ⟨C10_normalise_roundtrip.1 (.str "6,5") "5,6" (by decide),
   C10_normalise_roundtrip.2 (.str "6,5") "5,6" [6, 5] (by decide) (by decide)
     (by decide)⟩

/-! ## Properties of `next_occurrence` -/

theorem parse_day_string_ne_nil {s : String} {ds : List Int}
    (h : parse_day_string s = .ok ds) : ds ≠ [] := by
  unfold parse_day_string at h
  split at h
  · cases h; decide
  · split at h
    · exact absurd h (by simp)
    next parsed =>
      split at h
      · cases h; decide
      next hpne =>
        split at h
        · exact absurd h (by simp)
        · cases h
          exact sortedSet_ne_nil hpne

/-- Any timestamp returned by `next_occurrence` lies between the reference
rounded down to the minute and 14 days past the reference's day. -/
theorem next_occurrence_some_bounds {sched : Schedule} {reference t : Nat}
    (h : next_occurrence sched reference = .ok (some t)) :
    reference / 60 * 60 ≤ t ∧ t < reference / 86400 * 86400 + 14 * 86400 := by
  unfold next_occurrence at h
  split at h
  · exact absurd h (by simp)
  next days hd =>
    split at h
    · exact absurd h (by simp)
    · split at h
      next hour minute hpt =>
        split at h
        next hrange =>
          obtain ⟨hh0, hh23, hm0, hm59⟩ := hrange
          injection h with h
          obtain ⟨offset, hoff, hf⟩ := List.exists_of_findSome?_eq_some h
          rw [List.mem_range] at hoff
          split at hf
          · split at hf
            next hcand =>
              injection hf with hf
              subst hf
              constructor
              · exact hcand
              · omega
            · exact absurd hf (by simp)
          · exact absurd hf (by simp)
        · exact absurd h (by simp)
      next => exact absurd h (by simp)

set_option maxRecDepth 4000 in
/-- For a schedule whose parsed day set is the full week and whose start
time parses to in-range `hour:minute`, `next_occurrence` returns the
reference's day at that time when it is not below the reference rounded to
the minute, else the next day at that time. -/
theorem next_occurrence_full_week {sched : Schedule} {reference : Nat}
    {hour minute : Int}
    (hd : parse_day_string sched.days = .ok (intRange 0 7))
    (ht : (pySplitOnce (if sched.start_time = "" then "00:00" else sched.start_time)
      ':').mapM pyInt = some [hour, minute])
    (hh0 : 0 ≤ hour) (hh : hour ≤ 23) (hm0 : 0 ≤ minute) (hm : minute ≤ 59) :
    next_occurrence sched reference =
      .ok (some (if reference / 60 * 60 ≤ day_start reference hour minute
        then day_start reference hour minute
        else day_start reference hour minute + 86400)) := by
  have hmem : ∀ k : Nat, ((k % 7 : Nat) : Int) ∈ intRange 0 7 := by
    intro k
    rw [mem_intRange]
    constructor
    · exact Int.natCast_nonneg _
    · omega
  simp only [next_occurrence, hd, ht]
  rw [if_neg (show ¬(intRange 0 7 = ([] : List Int)) by decide),
    if_pos (show 0 ≤ hour ∧ hour ≤ 23 ∧ 0 ≤ minute ∧ minute ≤ 59 from
      ⟨hh0, hh, hm0, hm⟩)]
  rw [show List.range 14 = 0 :: 1 :: List.range' 2 12 by decide]
  rw [List.findSome?_cons]
  simp only [Nat.add_zero, if_pos (hmem (reference / 60 * 60 / 86400))]
  by_cases hc : reference / 60 * 60 ≤ day_start reference hour minute
  · rw [if_pos hc, if_pos (show reference / 60 * 60 ≤
      reference / 60 * 60 / 86400 * 86400 + hour.toNat * 3600 + minute.toNat * 60
      from hc)]
    rfl
  · rw [if_neg hc, if_neg (show ¬(reference / 60 * 60 ≤
      reference / 60 * 60 / 86400 * 86400 + hour.toNat * 3600 + minute.toNat * 60)
      from hc)]
    rw [List.findSome?_cons]
    simp only [if_pos (hmem (reference / 60 * 60 / 86400 + 1))]
    rw [if_pos (show reference / 60 * 60 ≤
      (reference / 60 * 60 / 86400 + 1) * 86400 + hour.toNat * 3600 +
        minute.toNat * 60 by omega)]
    have harith : (reference / 60 * 60 / 86400 + 1) * 86400 + hour.toNat * 3600 +
        minute.toNat * 60 = day_start reference hour minute + 86400 := by
      unfold day_start
      ring
    rw [harith]

/-- **C6 counterexample.** A schedule active every day with start time
`00:00`, evaluated at reference 00:00:30 on a Monday, yields Monday
00:00:00 — strictly before the reference — because the reference is rounded
down to the minute before the comparison; under the claim it would have to
return Tuesday 00:00. -/
theorem C6_counterexample :
    next_occurrence ⟨1, none, "0,1,2,3,4,5,6", "00:00", 15, true, none⟩ 30 =
      .ok (some 0) ∧ (0 : Nat) < 30 := by
  refine ⟨by decide, by decide⟩

/-- **C6** (amended).  `next_occurrence` never returns a timestamp strictly
before the reference rounded down to the minute; and for a schedule whose
day set is the full week with a well-formed in-range start time it returns
exactly the reference's day at the start time when that is not below the
rounded reference, else the next day at the start time. -/
theorem C6_next_occurrence_amended :
    (∀ (sched : Schedule) (reference t : Nat),
      next_occurrence sched reference = .ok (some t) →
      reference / 60 * 60 ≤ t) ∧
    (∀ (sched : Schedule) (reference : Nat) (hour minute : Int),
      parse_day_string sched.days = .ok (intRange 0 7) →
      (pySplitOnce (if sched.start_time = "" then "00:00" else sched.start_time)
        ':').mapM pyInt = some [hour, minute] →
      0 ≤ hour → hour ≤ 23 → 0 ≤ minute → minute ≤ 59 →
      next_occurrence sched reference =
        .ok (some (if reference / 60 * 60 ≤ day_start reference hour minute
          then day_start reference hour minute
          else day_start reference hour minute + 86400))) :=
  ⟨fun _ _ _ h => (next_occurrence_some_bounds h).1,
   fun _ _ _ _ hd ht hh0 hh hm0 hm =>
     next_occurrence_full_week hd ht hh0 hh hm0 hm⟩

/-- Witness for C6: the full-week schedule at reference 30 returns 0, which
satisfies both amended conjuncts at this input. -/
theorem C6_witness :
    ((30 : Nat) / 60 * 60 ≤ 0) ∧
    next_occurrence ⟨1, none, "0,1,2,3,4,5,6", "00:00", 15, true, none⟩ 30 =
      .ok (some (if (30 : Nat) / 60 * 60 ≤ day_start 30 0 0
        then day_start 30 0 0 else day_start 30 0 0 + 86400)) :=
  ⟨C6_next_occurrence_amended.1 ⟨1, none, "0,1,2,3,4,5,6", "00:00", 15, true, none⟩
      30 0 (by decide),
   C6_next_occurrence_amended.2 ⟨1, none, "0,1,2,3,4,5,6", "00:00", 15, true, none⟩
      30 0 0 (by decide) (by decide) (by decide) (by decide) (by decide) (by decide)⟩

theorem parse_day_string_bounds {s : String} {ds : List Int}
    (h : parse_day_string s = .ok ds) : ∀ v ∈ ds, 0 ≤ v ∧ v ≤ 6 := by
  unfold parse_day_string at h
  split at h
  · cases h; intro v hv; rw [mem_intRange] at hv; omega
  · split at h
    · exact absurd h (by simp)
    next parsed =>
      split at h
      · cases h; intro v hv; rw [mem_intRange] at hv; omega
      · split at h
        · exact absurd h (by simp)
        next hany =>
          cases h
          intro v hv
          rw [mem_sortedSet] at hv
          have hnv : ¬ (decide (v < 0) || decide (6 < v)) = true := by
            intro hcon
            exact hany (List.any_eq_true.mpr ⟨v, hv, hcon⟩)
          simp only [Bool.or_eq_true, decide_eq_true_eq, not_or] at hnv
          omega

/-- With parseable days and an in-range parsed start time, the 14-day scan
always finds a candidate — the scan spans two full weeks, and for any
weekday of the (always non-empty) day set the matching day a full week
past the reference's day is never below the rounded reference — so
`next_occurrence` returns a timestamp, never absent. -/
theorem next_occurrence_total {sched : Schedule} {reference : Nat}
    {ds : List Int} {hour minute : Int}
    (hd : parse_day_string sched.days = .ok ds)
    (ht : (pySplitOnce (if sched.start_time = "" then "00:00" else sched.start_time)
      ':').mapM pyInt = some [hour, minute])
    (hh0 : 0 ≤ hour) (hh : hour ≤ 23) (hm0 : 0 ≤ minute) (hm : minute ≤ 59) :
    ∃ t, next_occurrence sched reference = .ok (some t) := by
  obtain ⟨w, hw⟩ := List.exists_mem_of_ne_nil ds (parse_day_string_ne_nil hd)
  have hwb := parse_day_string_bounds hd w hw
  simp only [next_occurrence, hd, ht]
  rw [if_neg (parse_day_string_ne_nil hd),
    if_pos (show 0 ≤ hour ∧ hour ≤ 23 ∧ 0 ≤ minute ∧ minute ≤ 59 from
      ⟨hh0, hh, hm0, hm⟩)]
  have hwmod : (((reference / 60 * 60 / 86400 +
      ((w.toNat + 7 - reference / 60 * 60 / 86400 % 7) % 7 + 7)) % 7 : Nat) : Int)
      = w := by
    have h2 : (reference / 60 * 60 / 86400 +
        ((w.toNat + 7 - reference / 60 * 60 / 86400 % 7) % 7 + 7)) % 7 = w.toNat := by
      omega
    rw [h2]
    omega
  have hsome : ((List.range 14).findSome? fun offset =>
      if (((reference / 60 * 60 / 86400 + offset) % 7 : Nat) : Int) ∈ ds then
        if reference / 60 * 60 ≤
            (reference / 60 * 60 / 86400 + offset) * 86400 +
              hour.toNat * 3600 + minute.toNat * 60 then
          some ((reference / 60 * 60 / 86400 + offset) * 86400 +
            hour.toNat * 3600 + minute.toNat * 60)
        else none
      else none).isSome := by
    rw [List.findSome?_isSome_iff]
    refine ⟨(w.toNat + 7 - reference / 60 * 60 / 86400 % 7) % 7 + 7, ?_, ?_⟩
    · rw [List.mem_range]; omega
    · rw [if_pos (by rw [hwmod]; exact hw), if_pos (by omega)]
      simp
  obtain ⟨t, ht2⟩ := Option.isSome_iff_exists.mp hsome
  exact ⟨t, by rw [ht2]⟩


/-- **C7 counterexample.** A schedule whose start time string `"25:00"` is
not a valid time of day makes `next_occurrence` raise a `ValueError`
(from `dt.time`) instead of returning absent. -/
theorem C7_counterexample :
    next_occurrence ⟨1, none, "0", "25:00", 15, true, none⟩ 0 = .error () ∧
    (Except.error () : Except Unit (Option Nat)) ≠ .ok none := by
  refine ⟨by decide, by decide⟩

/-- **C7** (amended).  An empty days string is parsed as the full week, so
the empty-day-set guard of `next_occurrence` never fires and such a
schedule yields a timestamp rather than absent; `next_occurrence` returns
absent exactly when the start-time fields fail integer parsing (the caught
`ValueError`): on parse failure it returns absent, and whenever the days
string parses and the start-time fields parse to in-range values it always
returns a timestamp; integer fields outside 0–23 / 0–59 raise instead; and
any returned timestamp lies within 14 days of the reference's day (the
scan covers at most 14 days from the reference rounded down to the
minute). -/
theorem C7_next_occurrence_failure_modes :
    parse_day_string "" = .ok (intRange 0 7) ∧
    next_occurrence ⟨1, none, "", "00:00", 15, true, none⟩ 30 = .ok (some 0) ∧
    (∀ (sched : Schedule) (reference : Nat) (ds : List Int),
      parse_day_string sched.days = .ok ds →
      (∀ hour minute : Int,
        (pySplitOnce (if sched.start_time = "" then "00:00" else sched.start_time)
          ':').mapM pyInt ≠ some [hour, minute]) →
      next_occurrence sched reference = .ok none) ∧
    (∀ (sched : Schedule) (reference : Nat) (ds : List Int) (hour minute : Int),
      parse_day_string sched.days = .ok ds →
      (pySplitOnce (if sched.start_time = "" then "00:00" else sched.start_time)
        ':').mapM pyInt = some [hour, minute] →
      ¬ (0 ≤ hour ∧ hour ≤ 23 ∧ 0 ≤ minute ∧ minute ≤ 59) →
      next_occurrence sched reference = .error ()) ∧
    (∀ (sched : Schedule) (reference t : Nat),
      next_occurrence sched reference = .ok (some t) →
      t < reference / 86400 * 86400 + 14 * 86400) ∧
    (∀ (sched : Schedule) (reference : Nat) (ds : List Int) (hour minute : Int),
      parse_day_string sched.days = .ok ds →
      (pySplitOnce (if sched.start_time = "" then "00:00" else sched.start_time)
        ':').mapM pyInt = some [hour, minute] →
      0 ≤ hour → hour ≤ 23 → 0 ≤ minute → minute ≤ 59 →
      ∃ t, next_occurrence sched reference = .ok (some t)) := by
  refine ⟨by decide, by decide, ?_, ?_, ?_, ?_⟩
  · intro sched reference ds hd hbad
    simp only [next_occurrence, hd]
    rw [if_neg (parse_day_string_ne_nil hd)]
  · intro sched reference ds hour minute hd ht hrange
    simp only [next_occurrence, hd, ht]
    rw [if_neg (parse_day_string_ne_nil hd), if_neg hrange]
  · exact fun _ _ _ h => (next_occurrence_some_bounds h).2
  · exact fun _ _ _ _ _ hd ht hh0 hh hm0 hm =>
      next_occurrence_total hd ht hh0 hh hm0 hm

/-- Witness for C7's quantified conjuncts at concrete schedules. -/
theorem C7_witness :
    next_occurrence ⟨1, none, "0", "ab:cd", 15, true, none⟩ 5 = .ok none ∧
    next_occurrence ⟨1, none, "0", "25:00", 15, true, none⟩ 5 = .error () ∧
    (0 : Nat) < 5 / 86400 * 86400 + 14 * 86400 ∧
    (∃ t, next_occurrence ⟨1, none, "3", "23:59", 15, true, none⟩ 5 =
      .ok (some t)) :=
  ⟨C7_next_occurrence_failure_modes.2.2.1 ⟨1, none, "0", "ab:cd", 15, true, none⟩
      5 [0] (by decide) (fun hour minute hcon => by
        have h2 : some [hour, minute] = (none : Option (List Int)) := by
          rw [← hcon]; decide
        exact Option.noConfusion h2),
   C7_next_occurrence_failure_modes.2.2.2.1 ⟨1, none, "0", "25:00", 15, true, none⟩
      5 [0] 25 0 (by decide) (by decide) (by decide),
   C7_next_occurrence_failure_modes.2.2.2.2.1 ⟨1, none, "0,1,2,3,4,5,6", "00:00",
      15, true, none⟩ 5 0 (by decide),
   C7_next_occurrence_failure_modes.2.2.2.2.2 ⟨1, none, "3", "23:59", 15, true,
      none⟩ 5 [3] 23 59 (by decide) (by decide) (by decide) (by decide)
      (by decide) (by decide)⟩

/-! ## Player skip behaviour -/

/-- **C9 counterexample.** The cvlc backend with a live process and a
one-file playlist, cursor on the last (only) file: `skip` wraps the cursor
back to 0 and playback continues — it does not behave as `stop()`, whose
cursor would be -1 with playback halted. -/
theorem C9_counterexample :
    ((⟨["a.mp3"], 0, true, 70, true⟩ : CVLCPlayer).skip).current_index = 0 ∧
    ((⟨["a.mp3"], 0, true, 70, true⟩ : CVLCPlayer).skip).is_playing = true ∧
    ((0 : Int) ≠ -1) := by
  refine ⟨by decide, by decide, by decide⟩

/-- **C9** (amended). For the dummy backend with a loaded playlist, `skip`
advances the cursor to the next file, and when there is no next file it
behaves as `stop()`: playback halts and `current_index` returns -1.  The
cvlc backend instead wraps its local cursor modulo the playlist length
(while queueing `next` to the process) and leaves playback running. -/
theorem C9_skip_behaviour :
    (∀ p : DummyPlayer, p.files ≠ [] →
      (p.index + 1 < (p.files.length : Int) →
        p.skip = { p with index := p.index + 1 }) ∧
      (¬ p.index + 1 < (p.files.length : Int) →
        p.skip = p.stop ∧ p.skip.current_index = -1 ∧
          p.skip.is_playing = false)) ∧
    (∀ q : CVLCPlayer, q.process = true → q.files ≠ [] →
      q.skip = { q with index := (q.index + 1) % (q.files.length : Int) } ∧
      q.skip.is_playing = q.is_playing) := by
  constructor
  · intro p hf
    constructor
    · intro hlt
      simp only [DummyPlayer.skip, if_neg hf, if_pos hlt]
    · intro hge
      simp only [DummyPlayer.skip, if_neg hf, if_neg hge]
      simp [DummyPlayer.stop, DummyPlayer.current_index, DummyPlayer.is_playing]
  · intro q hp hf
    simp only [CVLCPlayer.skip, hp, if_pos, if_neg hf]
    simp [CVLCPlayer.is_playing]
    exact fun _ => hp

/-- Witness for C9: a dummy player mid-playlist, a dummy player at the last
file, and a cvlc player at the last file. -/
theorem C9_witness :
    ((⟨["a", "b"], 0, true, 70⟩ : DummyPlayer).skip =
      { (⟨["a", "b"], 0, true, 70⟩ : DummyPlayer) with index := (0 : Int) + 1 }) ∧
    ((⟨["a"], 0, true, 70⟩ : DummyPlayer).skip.current_index = -1 ∧
     (⟨["a"], 0, true, 70⟩ : DummyPlayer).skip.is_playing = false) ∧
    ((⟨["a", "b"], 1, true, 70, true⟩ : CVLCPlayer).skip =
      { (⟨["a", "b"], 1, true, 70, true⟩ : CVLCPlayer) with
        index := ((1 : Int) + 1) % ((["a", "b"].length : Nat) : Int) }) :=
  ⟨(C9_skip_behaviour.1 ⟨["a", "b"], 0, true, 70⟩ (by decide)).1 (by decide),
   ⟨((C9_skip_behaviour.1 ⟨["a"], 0, true, 70⟩ (by decide)).2 (by decide)).2.1,
    ((C9_skip_behaviour.1 ⟨["a"], 0, true, 70⟩ (by decide)).2 (by decide)).2.2⟩,
   (C9_skip_behaviour.2 ⟨["a", "b"], 1, true, 70, true⟩ rfl (by decide)).1⟩

/-! ## The session-state invariant (C1) -/

theorem daemon_invariant_init : daemon_invariant init_daemon := by
  refine ⟨⟨?_, ?_⟩, ?_⟩ <;> intro hs <;> simp [init_daemon] at hs ⊢

theorem daemon_invariant_logMsg {d : Daemon} {m : String}
    (h : daemon_invariant d) : daemon_invariant (d.logMsg m) := h

theorem daemon_invariant_start_tracks {cfg : Config} {now : Nat} {d : Daemon}
    {fps : List String} {tids : List Int} {dur : Int} {pid : Option Int}
    (h : daemon_invariant d) :
    daemon_invariant (Daemon.start_tracks cfg now d fps tids dur pid).1 := by
  unfold Daemon.start_tracks
  split
  · exact h
  · exact ⟨⟨fun _ h2 => Option.noConfusion h2,
      fun hs => absurd hs (show ¬("playing" = "idle") by decide)⟩,
      fun hs => absurd hs (show ¬("playing" = "idle") by decide)⟩

theorem daemon_invariant_stop_session {d : Daemon} {now : Nat}
    (h : daemon_invariant d) : daemon_invariant (d.stop_session now) := by
  unfold Daemon.stop_session
  split
  · exact h
  · exact ⟨⟨fun hs => absurd hs (show ¬("idle" = "playing") by decide),
      fun _ => ⟨rfl, rfl, rfl⟩⟩, fun _ => rfl⟩

theorem daemon_invariant_start_session {cfg : Config} {now : Nat} {d : Daemon}
    {pid minutes : Int} (h : daemon_invariant d) :
    daemon_invariant (Daemon.start_session cfg now d pid minutes) := by
  simp only [Daemon.start_session]
  split
  · exact h
  · split
    · exact daemon_invariant_logMsg (daemon_invariant_start_tracks h)
    · exact daemon_invariant_start_tracks h

theorem daemon_invariant_start_preview {cfg : Config} {now : Nat} {d : Daemon}
    {tid : Int} (h : daemon_invariant d) :
    daemon_invariant (Daemon.start_preview cfg now d tid) := by
  simp only [Daemon.start_preview]
  split
  · exact h
  · split
    · exact h
    · split
      · split
        · exact daemon_invariant_logMsg (daemon_invariant_start_tracks
            (daemon_invariant_stop_session h))
        · exact daemon_invariant_start_tracks (daemon_invariant_stop_session h)
      · split
        · exact daemon_invariant_logMsg (daemon_invariant_start_tracks h)
        · exact daemon_invariant_start_tracks h

theorem daemon_invariant_sched_fire {cfg : Config} {now : Nat} {d : Daemon}
    {sched : Schedule} (h : daemon_invariant d) :
    daemon_invariant (Daemon.sched_fire cfg now d sched) := by
  simp only [Daemon.sched_fire]
  split
  · exact h
  · split
    · exact h
    · split
      · exact h
      · split
        · exact h
        · exact daemon_invariant_start_session h

theorem daemon_invariant_foldl {α : Type} {f : Daemon → α → Daemon} {l : List α}
    {d : Daemon} (hf : ∀ d a, daemon_invariant d → daemon_invariant (f d a))
    (h : daemon_invariant d) : daemon_invariant (l.foldl f d) := by
  induction l generalizing d with
  | nil => exact h
  | cons a l ih => exact ih (hf d a h)

theorem daemon_invariant_tick_schedules {cfg : Config} {now : Nat} {d : Daemon}
    (h : daemon_invariant d) :
    daemon_invariant (Daemon.tick_schedules cfg now d) :=
  daemon_invariant_foldl (fun _ _ hd => daemon_invariant_sched_fire hd) h

theorem daemon_invariant_exec_command {cfg : Config} {now : Nat} {d : Daemon}
    {command : Command} (h : daemon_invariant d) :
    daemon_invariant (Daemon.exec_command cfg now d command) := by
  simp only [Daemon.exec_command]
  split
  · -- PLAY
    split
    · exact h
    · exact daemon_invariant_start_session h
  · split
    · -- STOP
      exact daemon_invariant_stop_session h
    · split
      · -- SET_VOLUME
        exact h
      · split
        · -- SKIP
          obtain ⟨⟨hp, hi⟩, ht⟩ := h
          refine ⟨⟨hp, ?_⟩, ht⟩
          intro hs
          obtain ⟨he, hpl, hct⟩ := hi hs
          refine ⟨he, hpl, ?_⟩
          have hnil : d.current_track_ids = [] := ht hs
          show (if 0 ≤ (d.player.skip).current_index ∧
              (d.player.skip).current_index < (d.current_track_ids.length : Int) then
              d.current_track_ids.get? (d.player.skip).current_index.toNat
            else d.state.current_track_id) = none
          rw [hnil]
          rw [if_neg (by
            rintro ⟨h1, h2⟩
            simp only [List.length_nil, Int.natCast_zero] at h2
            omega)]
          exact hct
        · split
          · -- POWER_ON
            exact h
          · split
            · -- POWER_OFF
              exact h
            · split
              · -- PREVIEW
                split
                · exact h
                · exact daemon_invariant_start_preview h
              · -- unknown type
                exact h

theorem daemon_invariant_tick_commands {cfg : Config} {now : Nat} {d : Daemon}
    (h : daemon_invariant d) :
    daemon_invariant (Daemon.tick_commands cfg now d) :=
  daemon_invariant_foldl (fun _ _ hd => daemon_invariant_exec_command hd) h

theorem daemon_invariant_tick_player {d : Daemon} {now : Nat}
    (h : daemon_invariant d) : daemon_invariant (d.tick_player now) := by
  simp only [Daemon.tick_player, DummyPlayer.update, DummyPlayer.current_index]
  obtain ⟨⟨hp, hi⟩, ht⟩ := h
  split
  next hguard =>
    have hmid : daemon_invariant { d with state := { d.state with
        current_track_id := d.current_track_ids.get? d.player.index.toNat } } := by
      refine ⟨⟨hp, ?_⟩, ht⟩
      intro hs
      obtain ⟨he, hpl, _⟩ := hi hs
      exact ⟨he, hpl, by rw [show d.current_track_ids = [] from ht hs]; rfl⟩
    split
    · exact daemon_invariant_stop_session hmid
    · exact hmid
  next =>
    split
    next =>
      have hmid : daemon_invariant
          { d with state := { d.state with current_track_id := none } } :=
        ⟨⟨hp, fun hs => ⟨(hi hs).1, (hi hs).2.1, rfl⟩⟩, ht⟩
      split
      · exact daemon_invariant_stop_session hmid
      · exact hmid
    next =>
      split
      · exact daemon_invariant_stop_session ⟨⟨hp, hi⟩, ht⟩
      · exact ⟨⟨hp, hi⟩, ht⟩

theorem daemon_invariant_tick_session_timeout {d : Daemon} {now : Nat}
    (h : daemon_invariant d) : daemon_invariant (d.tick_session_timeout now) := by
  unfold Daemon.tick_session_timeout
  split
  · exact h
  · split
    · exact h
    · split
      · exact daemon_invariant_stop_session h
      · exact h

theorem daemon_invariant_step {cfg : Config} {d d2 : Daemon}
    (hstep : DaemonStep cfg d d2) (h : daemon_invariant d) :
    daemon_invariant d2 := by
  cases hstep with
  | session_start now pid minutes => exact daemon_invariant_start_session h
  | preview_start now tid => exact daemon_invariant_start_preview h
  | session_stop now => exact daemon_invariant_stop_session h
  | schedules now => exact daemon_invariant_tick_schedules h
  | commands now => exact daemon_invariant_tick_commands h
  | player_poll now => exact daemon_invariant_tick_player h
  | timeout now => exact daemon_invariant_tick_session_timeout h
  | beat now => exact h
  | enqueue_command c => exact h
  | edit_schedules ss => exact h
  | edit_library ps ts => exact h

/-- **C1.** For every daemon state reachable from startup through any
sequence of daemon steps (session start, preview start, session stop,
schedule firing, command draining, player poll, timeout enforcement,
heartbeat, and external edits of the durable tables), `status = playing`
implies `session_end_at` is set, and `status = idle` implies
`session_end_at`, `playlist_id` and `current_track_id` are all absent. -/
theorem C1_session_state_invariant (cfg : Config) (d : Daemon)
    (h : ReachableDaemon cfg d) : state_invariant d := by
  have hinv : daemon_invariant d := by
    induction h with
    | refl => exact daemon_invariant_init
    | tail _ hstep ih => exact daemon_invariant_step hstep ih
  exact hinv.1

/-- Witness for C1 at the initial daemon state. -/
theorem C1_witness : state_invariant init_daemon :=
  C1_session_state_invariant {} init_daemon Relation.ReflTransGen.refl

/-! ## Command draining (C2, C3, C5) -/

/-- A tick that drains a single pending command is that command's
execution. -/
theorem tick_commands_single {cfg : Config} {now : Nat} {d : Daemon}
    {cmd : Command} (hcmds : d.commands = [cmd])
    (hpa : cmd.processed_at = none) :
    Daemon.tick_commands cfg now d = Daemon.exec_command cfg now d cmd := by
  simp [Daemon.tick_commands, hcmds, hpa]

/-- **C2.** A pending PLAY command whose payload carries a playlist id
resolving to a non-empty file list yields, after one command-draining tick,
status `playing`, that playlist id, `session_end_at = now +
max(requested_minutes * 60, 30)` seconds, and the command stamped
processed. -/
theorem C2_play_command_roundtrip (cfg : Config) (now : Nat) (d : Daemon)
    (cmd : Command) (pid m : Int)
    (hcmds : d.commands = [cmd])
    (htype : cmd.type = "PLAY")
    (hpa : cmd.processed_at = none)
    (hpid : cmd.payload.playlist_id = some pid)
    (hm : cmd.payload.minutes = some m)
    (hne : (d.playlist_files pid).1 ≠ []) :
    (Daemon.tick_commands cfg now d).state.status = "playing" ∧
    (Daemon.tick_commands cfg now d).state.playlist_id = some pid ∧
    (Daemon.tick_commands cfg now d).state.session_end_at =
      some (now + (max (m * 60) 30).toNat) ∧
    (Daemon.tick_commands cfg now d).commands =
      [{ cmd with processed_at := some now }] := by
  rw [tick_commands_single hcmds hpa]
  simp only [Daemon.exec_command, htype, hpid, hm, ite_true, Option.getD_some]
  simp only [Daemon.start_session, if_neg hne, Daemon.start_tracks, if_neg hne,
    Daemon.logMsg, ite_true, hcmds, List.map_cons, List.map_nil, beq_self_eq_true]
  refine ⟨trivial, trivial, by rw [max_comm], by rw [htype]⟩

/-- Witness for C2 at a concrete one-playlist daemon. -/
theorem C2_witness :
    (Daemon.tick_commands {} 1000
        { tracks := [⟨1, "a.mp3", some 120, true⟩], playlists := [⟨1, [1]⟩],
          commands := [⟨1, "PLAY", { playlist_id := some 1, minutes := some 15 },
            none⟩] }).state.status = "playing" ∧
    (Daemon.tick_commands {} 1000
        { tracks := [⟨1, "a.mp3", some 120, true⟩], playlists := [⟨1, [1]⟩],
          commands := [⟨1, "PLAY", { playlist_id := some 1, minutes := some 15 },
            none⟩] }).state.session_end_at =
      some (1000 + (max ((15 : Int) * 60) 30).toNat) :=
  ⟨(C2_play_command_roundtrip {} 1000 _ _ 1 15 rfl rfl rfl rfl rfl (by decide)).1,
   (C2_play_command_roundtrip {} 1000 _ _ 1 15 rfl rfl rfl rfl rfl
     (by decide)).2.2.1⟩

/-- **C3 counterexample.** Draining a SET_VOLUME command with volume 150
persists 150 — not 100 — in Session State's volume field; only the player
backend clamps. -/
theorem C3_counterexample :
    (Daemon.tick_commands {} 5
        { commands := [⟨1, "SET_VOLUME", { volume := some 150 }, none⟩] }).state.volume
      = 150 ∧
    ((150 : Int) ≠ 100) := by
  refine ⟨by decide, by decide⟩

/-- **C3** (amended). For every SET_VOLUME command whose payload volume
exceeds 100 (e.g. 150), draining the command applies the value to the
player backend, which clamps it to 100 internally, but persists the raw
unclamped value in Session State's volume field; the command is stamped
processed. -/
theorem C3_set_volume_clamping (cfg : Config) (now : Nat) (d : Daemon)
    (cmd : Command) (v : Int)
    (hcmds : d.commands = [cmd])
    (htype : cmd.type = "SET_VOLUME")
    (hpa : cmd.processed_at = none)
    (hv : cmd.payload.volume = some v)
    (hgt : 100 < v) :
    (Daemon.tick_commands cfg now d).player.volume = 100 ∧
    (Daemon.tick_commands cfg now d).state.volume = v ∧
    (Daemon.tick_commands cfg now d).commands =
      [{ cmd with processed_at := some now }] := by
  rw [tick_commands_single hcmds hpa]
  simp only [Daemon.exec_command, htype, hv, Option.getD_some, Daemon.logMsg,
    DummyPlayer.set_volume, hcmds, List.map_cons, List.map_nil, beq_self_eq_true,
    ite_true]
  refine ⟨?_, ?_, ?_⟩
  · simp
    omega
  · simp
  · simp [htype]

/-- Witness for C3 at volume 150. -/
theorem C3_witness :
    (Daemon.tick_commands {} 5
        { commands := [⟨1, "SET_VOLUME", { volume := some 150 }, none⟩] }).player.volume
      = 100 ∧
    (Daemon.tick_commands {} 5
        { commands := [⟨1, "SET_VOLUME", { volume := some 150 },
          none⟩] }).state.volume = 150 :=
  ⟨(C3_set_volume_clamping {} 5 _ _ 150 rfl rfl rfl rfl (by decide)).1,
   (C3_set_volume_clamping {} 5 _ _ 150 rfl rfl rfl rfl (by decide)).2.1⟩

theorem resolve_playlist_of_not_single {d : Daemon}
    (h : d.playlists.length ≠ 1) : d.resolve_playlist = none := by
  unfold Daemon.resolve_playlist
  split
  next p heq => rw [heq] at h; simp at h
  next => rfl

theorem session_start_count_append_other {l : List String} {m : String}
    (h : m ≠ "Session started") :
    session_start_count (l ++ [m]) = session_start_count l := by
  simp [session_start_count, List.filter_append, h]

/-- **C5.** A pending PLAY command with no playlist id in its payload
auto-selects the sole playlist when exactly one exists (starting it when it
is non-empty); with zero or two-or-more playlists it is rejected — the
Session State row is untouched and no session start is logged — yet the
command is still stamped processed. -/
theorem C5_play_auto_select (cfg : Config) (now : Nat) (d : Daemon)
    (cmd : Command)
    (hcmds : d.commands = [cmd])
    (htype : cmd.type = "PLAY")
    (hpa : cmd.processed_at = none)
    (hpid : cmd.payload.playlist_id = none) :
    (d.playlists.length ≠ 1 →
      (Daemon.tick_commands cfg now d).state = d.state ∧
      session_start_count (Daemon.tick_commands cfg now d).logs =
        session_start_count d.logs ∧
      (Daemon.tick_commands cfg now d).commands =
        [{ cmd with processed_at := some now }]) ∧
    (∀ p : Playlist, d.playlists = [p] → (d.playlist_files p.id).1 ≠ [] →
      (Daemon.tick_commands cfg now d).state.status = "playing" ∧
      (Daemon.tick_commands cfg now d).state.playlist_id = some p.id ∧
      (Daemon.tick_commands cfg now d).commands =
        [{ cmd with processed_at := some now }]) := by
  rw [tick_commands_single hcmds hpa]
  constructor
  · intro hlen
    simp only [Daemon.exec_command, htype, hpid, ite_true,
      resolve_playlist_of_not_single hlen, Daemon.logMsg, hcmds, List.map_cons,
      List.map_nil, beq_self_eq_true]
    refine ⟨trivial, ?_, trivial⟩
    exact session_start_count_append_other (by decide)
  · intro p hp hne
    have hres : d.resolve_playlist = some p.id := by
      unfold Daemon.resolve_playlist
      rw [hp]
    simp only [Daemon.exec_command, htype, hpid, ite_true, hres]
    simp only [Daemon.start_session, if_neg hne, Daemon.start_tracks, if_neg hne,
      Daemon.logMsg, ite_true, hcmds, List.map_cons, List.map_nil,
      beq_self_eq_true]
    refine ⟨trivial, trivial, by rw [htype]⟩

/-- Witness for C5: rejection with zero playlists, auto-select with exactly
one. -/
theorem C5_witness :
    (Daemon.tick_commands {} 9 { commands := [⟨1, "PLAY", {}, none⟩] }).state =
      ({} : StateRow) ∧
    (Daemon.tick_commands {} 9 { commands := [⟨1, "PLAY", {}, none⟩] }).commands =
      [⟨1, "PLAY", {}, some 9⟩] ∧
    (Daemon.tick_commands {} 9
        { tracks := [⟨1, "a.mp3", some 120, true⟩], playlists := [⟨1, [1]⟩],
          commands := [⟨1, "PLAY", {}, none⟩] }).state.status = "playing" :=
  ⟨((C5_play_auto_select {} 9 { commands := [⟨1, "PLAY", {}, none⟩] } _
      rfl rfl rfl rfl).1 (by decide)).1,
   ((C5_play_auto_select {} 9 { commands := [⟨1, "PLAY", {}, none⟩] } _
      rfl rfl rfl rfl).1 (by decide)).2.2,
   ((C5_play_auto_select {} 9
      { tracks := [⟨1, "a.mp3", some 120, true⟩], playlists := [⟨1, [1]⟩],
        commands := [⟨1, "PLAY", {}, none⟩] } _ rfl rfl rfl rfl).2
      ⟨1, [1]⟩ rfl (by decide)).1⟩

/-! ## Schedule firing and debounce (C4) -/

theorem start_tracks_schedules {cfg : Config} {now : Nat} {d : Daemon}
    {fps : List String} {tids : List Int} {dur : Int} {pid : Option Int} :
    (Daemon.start_tracks cfg now d fps tids dur pid).1.schedules = d.schedules := by
  unfold Daemon.start_tracks
  split <;> rfl

theorem start_session_schedules {cfg : Config} {now : Nat} {d : Daemon}
    {pid minutes : Int} :
    (Daemon.start_session cfg now d pid minutes).schedules = d.schedules := by
  simp only [Daemon.start_session]
  split
  · rfl
  · split
    · exact start_tracks_schedules
    · exact start_tracks_schedules

/-- A schedule already stamped within the last 50 seconds is skipped, so a
second schedule-firing run is a no-op on the whole daemon state. -/
theorem tick_schedules_debounced {cfg : Config} {t2 : Nat} {s : Daemon}
    {c : Schedule} {t1 : Nat}
    (hss : s.schedules = [c]) (hlf : c.last_fired_at = some t1)
    (hgap : (t2 : Int) - t1 < 50) :
    Daemon.tick_schedules cfg t2 s = s := by
  simp only [Daemon.tick_schedules, hss]
  cases hen : c.enabled with
  | false => simp [List.filter_cons, hen]
  | true =>
      simp only [List.filter_cons, hen, ite_true, List.filter_nil, List.foldl_cons,
        List.foldl_nil]
      simp only [Daemon.sched_fire, hlf]
      split
      · rfl
      · split
        · rfl
        · rw [if_pos (by rw [decide_eq_true_eq]; exact hgap)]

/-- **C4 counterexample.** A schedule due Tuesday 09:30 fired at 09:30:00
and again at 09:30:55 — both wall-clock times in the same minute — starts a
session twice, because the debounce window is 50 seconds, shorter than the
minute. -/
theorem C4_counterexample :
    hhmm 120600 = hhmm 120655 ∧
    weekday_str 120600 = weekday_str 120655 ∧
    session_start_count
      (Daemon.tick_schedules {} 120655
        (Daemon.tick_schedules {} 120600
          { tracks := [⟨1, "a.mp3", some 120, true⟩], playlists := [⟨1, [1]⟩],
            schedules := [⟨7, some 1, "1", "09:30", 15, true, none⟩] })).logs = 2 := by
  refine ⟨by decide, by decide, by decide⟩

/-- **C4** (amended). For an enabled schedule with a playlist reference that
is due at two times `t1 ≤ t2`, the first firing run stamps
`last_fired_at = t1` regardless of whether a session actually started (the
playlist may be empty or missing), and the second run starts no further
session provided it comes less than 50 seconds after the first — in fact it
leaves the daemon unchanged.  (Two due runs in the same minute but 50 or
more seconds apart fire twice, as the counterexample shows.) -/
theorem C4_schedule_debounce (cfg : Config) (d : Daemon) (sched : Schedule)
    (pid : Int) (t1 t2 : Nat)
    (hss : d.schedules = [sched])
    (hen : sched.enabled = true)
    (hpid : sched.playlist_id = some pid)
    (hlf : sched.last_fired_at = none)
    (hday1 : (pySplit sched.days ',').contains (weekday_str t1) = true)
    (htime1 : sched.start_time = hhmm t1)
    (hgap : (t2 : Int) - t1 < 50) :
    (Daemon.tick_schedules cfg t1 d).schedules =
      [{ sched with last_fired_at := some t1 }] ∧
    Daemon.tick_schedules cfg t2 (Daemon.tick_schedules cfg t1 d) =
      Daemon.tick_schedules cfg t1 d := by
  have hsched1 : (Daemon.tick_schedules cfg t1 d).schedules =
      [{ sched with last_fired_at := some t1 }] := by
    simp only [Daemon.tick_schedules, hss, List.filter_cons, hen, ite_true,
      List.filter_nil, List.foldl_cons, List.foldl_nil]
    simp only [Daemon.sched_fire, hday1, htime1, hlf, hpid]
    rw [if_neg (by simp), if_neg (by simp), if_neg (by simp)]
    simp only [start_session_schedules, hss, List.map_cons, List.map_nil,
      beq_self_eq_true, ite_true]
    rw [hpid, htime1, hen]
  exact ⟨hsched1, tick_schedules_debounced hsched1 rfl hgap⟩

/-- Witness for C4: the same schedule fired at 09:30:00 and re-run 40
seconds later in the same minute. -/
theorem C4_witness :
    (Daemon.tick_schedules {} 120600
        { tracks := [⟨1, "a.mp3", some 120, true⟩], playlists := [⟨1, [1]⟩],
          schedules := [⟨7, some 1, "1", "09:30", 15, true, none⟩] }).schedules =
      [⟨7, some 1, "1", "09:30", 15, true, some 120600⟩] ∧
    Daemon.tick_schedules {} 120640
        (Daemon.tick_schedules {} 120600
          { tracks := [⟨1, "a.mp3", some 120, true⟩], playlists := [⟨1, [1]⟩],
            schedules := [⟨7, some 1, "1", "09:30", 15, true, none⟩] }) =
      Daemon.tick_schedules {} 120600
        { tracks := [⟨1, "a.mp3", some 120, true⟩], playlists := [⟨1, [1]⟩],
          schedules := [⟨7, some 1, "1", "09:30", 15, true, none⟩] } :=
  ⟨(C4_schedule_debounce {} _ _ 1 120600 120640 rfl rfl rfl rfl (by decide)
      (by decide) (by decide)).1,
   (C4_schedule_debounce {} _ _ 1 120600 120640 rfl rfl rfl rfl (by decide)
      (by decide) (by decide)).2⟩

end MusicSchool
